import Mathlib

/-!
Verification of the entry/receipt controller in `src/models/StaffDetails.js`
(Dirt_off_Backend). The handlers are shallowly embedded: the document store is
a `DB` record, request bodies are records of optional fields, timestamps are
integer minutes since the epoch, and each handler becomes a pure function from
its inputs and the database to a response, the new database, and the list of
persistence events it performed, in source order.
-/

namespace StaffDetails

/-! ### JavaScript-level helpers -/

/-- Little-endian decimal digits of `n`, with explicit structural fuel
(`decDigits n` uses fuel `n`, which always suffices since `n / 10 < n`).
This is the digit sequence that `String(n)` prints, reversed. -/
def decDigitsAux : Nat → Nat → List Nat
  | _, 0 => []
  | 0, _ + 1 => []
  | f + 1, n + 1 => ((n + 1) % 10) :: decDigitsAux f ((n + 1) / 10)

/-- Little-endian decimal digits of `n` (empty for `0`). -/
def decDigits (n : Nat) : List Nat := decDigitsAux n n

/-- The character for a decimal digit `d < 10`. -/
def digitChar (d : Nat) : Char := Char.ofNat (48 + d)

/-- Numeric value of a decimal digit character. -/
def decDigitVal (c : Char) : Nat := c.toNat - 48

/-- JavaScript `String(n)` for a nonnegative integer `n`: its canonical
decimal representation. -/
def natToDecString (n : Nat) : String :=
  if n = 0 then "0" else ⟨(decDigits n).reverse.map digitChar⟩

/-- JavaScript `String.prototype.padStart(minLen, c)` (for a one-character
pad): pad on the left with `c` up to length `minLen`. -/
def padStart (minLen : Nat) (c : Char) (s : String) : String :=
  ⟨List.replicate (minLen - s.data.length) c ++ s.data⟩

/-- One step of reading a decimal string left to right. -/
def decodeStep (a : Nat) (c : Char) : Nat := a * 10 + decDigitVal c

/-- Numeric value of a (possibly zero-padded) decimal digit string. -/
def decodeDecString (s : String) : Nat := s.data.foldl decodeStep 0

/-! ### Claim C1's model: the receipt allocator under interleaved execution

`createNewentry` (lines 105-121) performs the allocation as two separate
storage operations: `ReceiptNumber.findOne()` reads the counter record, and
`receiptRecord.save()` writes back `currentReceiptNumber + 1`. Between a
request's read and its write, other requests may run. We model each in-flight
allocation as a small thread stepped by a scheduler: `ready` (about to run
line 106's read), `readValue v` (holding the fetched record, about to run
line 121's write of `v + 1`; the receipt delivered will be `v`), and
`finished v` (the handler proceeds with receipt value `v`). -/

inductive AllocThread
  | ready
  | readValue (v : Nat)
  | finished (v : Nat)
  deriving DecidableEq, Repr

structure AllocState where
  counter : Nat
  threads : List AllocThread
  deriving DecidableEq, Repr

/-- Run one storage operation of thread `i` (a no-op for an out-of-range or
finished thread). -/
def allocStep (s : AllocState) (i : Nat) : AllocState :=
  match s.threads[i]? with
  | some .ready => { s with threads := s.threads.set i (.readValue s.counter) }
  | some (.readValue v) => { counter := v + 1, threads := s.threads.set i (.finished v) }
  | _ => s

/-- Run a schedule (a list of thread indices) from a state. -/
def allocRun (sched : List Nat) (s : AllocState) : AllocState :=
  sched.foldl allocStep s

/-- The receipt values delivered to the callers that have completed. -/
def allocResults (s : AllocState) : List Nat :=
  s.threads.filterMap fun t =>
    match t with
    | .finished v => some v
    | _ => none

/-! ### Data model

Timestamps (`createdAt`, the `pickupAndDelivery` dates, `expectedDeliveryDate`)
are integer minutes since the Unix epoch, in UTC. Absent document fields are
`none`. JavaScript `Date` objects are always truthy, so a date field is falsy
exactly when it is absent. -/

structure Product where
  productName : String
  tax : Option Int
  deriving DecidableEq, Repr

structure Charges where
  taxAmount : Option Int
  totalAmount : Int
  deriving DecidableEq, Repr

structure PickupAndDelivery where
  expectedDeliveryDate : Option Int
  pickupDate : Option Int
  processedAndPackedDate : Option Int
  deliveryDate : Option Int
  deriving DecidableEq, Repr

/-- An `Entry` document (the NewEntry schema is not under `src/`; its fields
are those written by `createNewentry`, plus `status` and `visible`, which per
the spec default to `"pending"` and `true` at creation). -/
structure Entry where
  id : Nat
  customer : String
  customerPhone : String
  customerId : Nat
  receiptNo : String
  discount : Int
  remarks : String
  expectedDeliveryDate : Option Int
  products : List Product
  charges : Option Charges
  pickupAndDelivery : PickupAndDelivery
  status : Option String
  visible : Bool
  createdAt : Int
  deriving DecidableEq, Repr

structure CustomerRec where
  id : Nat
  phone : String
  deriving DecidableEq, Repr

/-- Per-status counts held by the denormalized EntryStat record. -/
structure EntryStatRec where
  pending : Nat
  collected : Nat
  processedAndPacked : Nat
  delivered : Nat
  deriving DecidableEq, Repr

/-- The document database: the customers collection, the singleton
ReceiptNumber record's `currentReceiptNumber` (none when the record does not
exist), the entries collection, and the singleton EntryStat record. -/
structure DB where
  customers : List CustomerRec
  receipt : Option Nat
  entries : List Entry
  stat : Option EntryStatRec
  deriving DecidableEq, Repr

/-- Persistence events, listed in the order the handler performs them. -/
inductive Event
  | counterSave (newValue : Nat)
  | entrySave (id : Nat)
  | entryDelete (id : Nat)
  | statsRecompute (failed : Bool)
  deriving DecidableEq, Repr

/-- Number of entries whose `status` equals `s`. -/
def countStatus (s : String) (es : List Entry) : Nat :=
  (es.filter fun e => e.status == some s).length

/-- Modelled from the spec: `manualUpdateStats` lives in
`src/middleware/entryStatsMiddleware.js`, which is not under `src/`. Per the
spec it recomputes the singleton EntryStat after every entry mutation, and
recompute failures are "logged and swallowed, never surfaced as the triggering
request's error": its promise never rejects. `recomputeFails` says whether the
underlying recompute failed; on failure the old record is kept (stale) and no
error propagates to the caller. -/
def manualUpdateStats (recomputeFails : Bool) (es : List Entry)
    (old : Option EntryStatRec) : Option EntryStatRec :=
  if recomputeFails then old
  else some
    { pending := countStatus "pending" es,
      collected := countStatus "collected" es,
      processedAndPacked := countStatus "processedAndPacked" es,
      delivered := countStatus "delivered" es }

/-! ### createNewentry (lines 64-150) -/

/-- The request body of `createNewentry`; every field may be absent. -/
structure CreateBody where
  customer : Option String
  customerId : Option Nat
  products : Option (List Product)
  charges : Option Charges
  pickupAndDelivery : Option PickupAndDelivery
  expectedDeliveryDate : Option Int
  discount : Option Int
  remarks : Option String
  deriving DecidableEq, Repr

/-- JavaScript truthiness of an optional string (falsy when absent or empty). -/
def strTruthy : Option String → Bool
  | none => false
  | some s => s != ""

/-- JavaScript `x || d` for an optional number. -/
def jsOrInt (o : Option Int) (d : Int) : Int :=
  match o with
  | none => d
  | some n => if n = 0 then d else n

/-- JavaScript `x || d` for an optional string. -/
def jsOrStr (o : Option String) (d : String) : String :=
  match o with
  | none => d
  | some s => if s = "" then d else s

/-- Line 75's required-field check: `!customer || !customerId ||
!pickupAndDelivery.expectedDeliveryDate`. When `pickupAndDelivery` is absent
the member access throws, and the catch-all also answers 400, so that case is
folded into the same branch. -/
def createValidationFails (body : CreateBody) : Bool :=
  !strTruthy body.customer || body.customerId.isNone ||
    (match body.pickupAndDelivery with
     | none => true
     | some pad => pad.expectedDeliveryDate.isNone)

/-- Lines 92-98: default each product's missing `tax` to 0 (a present `tax`,
including 0, is kept). -/
def defaultProductTax (p : Product) : Product :=
  if p.tax = none then { p with tax := some 0 } else p

/-- Lines 91-98 (create path): normalize the products array when present. -/
def createNormalizeProducts : Option (List Product) → Option (List Product)
  | none => none
  | some ps => some (ps.map defaultProductTax)

/-- Lines 100-103 (create path): default a present `charges` object's missing
`taxAmount` to 0. -/
def createNormalizeCharges : Option Charges → Option Charges
  | none => none
  | some ch => if ch.taxAmount = none then some { ch with taxAmount := some 0 } else some ch

inductive CreateRes
  | badRequest
  | customerNotFound
  | counterMissing
  | created (e : Entry)
  deriving DecidableEq, Repr

/-- Lines 124-135: the document constructed for `newEntry`. -/
def createdEntry (body : CreateBody) (newId : Nat) (now : Int)
    (phone : String) (receiptNo : String) : Entry :=
  { id := newId,
    customer := body.customer.getD "",
    customerPhone := phone,
    customerId := body.customerId.getD 0,
    receiptNo := receiptNo,
    discount := jsOrInt body.discount 0,
    remarks := jsOrStr body.remarks "",
    expectedDeliveryDate := body.expectedDeliveryDate,
    products := (createNormalizeProducts body.products).getD [],
    charges := createNormalizeCharges body.charges,
    pickupAndDelivery := body.pickupAndDelivery.getD ⟨none, none, none, none⟩,
    status := some "pending",
    visible := true,
    createdAt := now }

/-- `createNewentry` (lines 64-150): validate, look up the customer, read the
receipt counter, render and pad the receipt number, save the incremented
counter, save the new entry, then refresh the stats. `newId` is the id the
store assigns, `now` the current time, `statsFails` whether the stats
recompute's underlying work fails. -/
def createNewentry (body : CreateBody) (newId : Nat) (now : Int)
    (statsFails : Bool) (db : DB) : CreateRes × DB × List Event :=
  if createValidationFails body then (.badRequest, db, [])
  else
    match db.customers.find? fun c => c.id == body.customerId.getD 0 with
    | none => (.customerNotFound, db, [])
    | some cust =>
      match db.receipt with
      | none => (.counterMissing, db, [])
      | some current =>
        let receiptNo := padStart 4 '0' (natToDecString current)
        let e := createdEntry body newId now cust.phone receiptNo
        let entries' := e :: db.entries
        (.created e,
          { db with
              receipt := some (current + 1),
              entries := entries',
              stat := manualUpdateStats statsFails entries' db.stat },
          [.counterSave (current + 1), .entrySave newId, .statsRecompute statsFails])

/-! ### updateEntry (lines 169-225), deleteEntry (lines 271-289),
toggleVisibility (lines 622-648) -/

/-- The request body of `updateEntry`, restricted to the fields the handler
inspects (`products`, `charges`, `status`); other passthrough fields are not
modelled. -/
structure UpdateBody where
  products : Option (List Product)
  charges : Option Charges
  status : Option String
  deriving DecidableEq, Repr

/-- Lines 174-180 (update path): same defaulting as the create path. -/
def updateNormalizeProducts : Option (List Product) → Option (List Product)
  | none => none
  | some ps => some (ps.map defaultProductTax)

/-- Lines 183-185 (update path): same defaulting as the create path. -/
def updateNormalizeCharges : Option Charges → Option Charges
  | none => none
  | some ch => if ch.taxAmount = none then some { ch with taxAmount := some 0 } else some ch

/-- The effect of `findByIdAndUpdate(id, req.body)` on the matched document:
each present top-level field is set, and the dotted
`pickupAndDelivery.*Date` keys installed by lines 187-198 set the nested
date fields to `now`, unconditionally on the patched status value. -/
def applyUpdateBody (e : Entry) (b : UpdateBody) (now : Int) : Entry :=
  let products :=
    match updateNormalizeProducts b.products with
    | none => e.products
    | some ps => ps
  let charges :=
    match updateNormalizeCharges b.charges with
    | none => e.charges
    | some ch => some ch
  let status :=
    match b.status with
    | none => e.status
    | some s => some s
  let pad := e.pickupAndDelivery
  let pad := if b.status == some "delivered" then { pad with deliveryDate := some now } else pad
  let pad := if b.status == some "collected" then { pad with pickupDate := some now } else pad
  let pad :=
    if b.status == some "processedAndPacked" then
      { pad with processedAndPackedDate := some now }
    else pad
  { e with products := products, charges := charges, status := status,
           pickupAndDelivery := pad }

/-- Replace the document with the given id (ids are unique in the store). -/
def saveEntryById (id : Nat) (e' : Entry) (es : List Entry) : List Entry :=
  es.map fun x => if x.id == id then e' else x

inductive UpdateRes
  | notFound
  | ok (e : Entry)
  deriving DecidableEq, Repr

/-- `updateEntry` (lines 169-225). -/
def updateEntry (id : Nat) (b : UpdateBody) (now : Int) (statsFails : Bool)
    (db : DB) : UpdateRes × DB × List Event :=
  match db.entries.find? fun e => e.id == id with
  | none => (.notFound, db, [])
  | some e =>
    let e' := applyUpdateBody e b now
    let entries' := saveEntryById id e' db.entries
    (.ok e',
      { db with entries := entries',
                stat := manualUpdateStats statsFails entries' db.stat },
      [.entrySave id, .statsRecompute statsFails])

inductive DeleteRes
  | notFound
  | ok
  deriving DecidableEq, Repr

/-- `deleteEntry` (lines 271-289): `findByIdAndDelete` removes the matched
document, then the stats are refreshed. -/
def deleteEntry (id : Nat) (statsFails : Bool) (db : DB) :
    DeleteRes × DB × List Event :=
  match db.entries.find? fun e => e.id == id with
  | none => (.notFound, db, [])
  | some _ =>
    let entries' := db.entries.eraseP fun e => e.id == id
    (.ok,
      { db with entries := entries',
                stat := manualUpdateStats statsFails entries' db.stat },
      [.entryDelete id, .statsRecompute statsFails])

inductive ToggleRes
  | notFound
  | ok (id : Nat) (visible : Bool)
  deriving DecidableEq, Repr

/-- `toggleVisibility` (lines 622-648): fetch the entry, flip `visible`,
save. No stats refresh is performed here. -/
def toggleVisibility (id : Nat) (db : DB) : ToggleRes × DB :=
  match db.entries.find? fun e => e.id == id with
  | none => (.notFound, db)
  | some e =>
    let e' := { e with visible := !e.visible }
    (.ok id e'.visible, { db with entries := saveEntryById id e' db.entries })

/-! ### Listing, pagination, search (lines 152-167, 291-319, 321-357) -/

/-- Stable insertion of an entry into a list sorted by `createdAt`
descending: the entry goes after every element with `createdAt` at least its
own. Models the store's `sort({ createdAt: -1 })` (a stable descending
sort). -/
def insertByCreatedDesc (e : Entry) : List Entry → List Entry
  | [] => [e]
  | x :: xs =>
    if x.createdAt < e.createdAt then e :: x :: xs else x :: insertByCreatedDesc e xs

/-- `sort({ createdAt: -1 })`: newest first. -/
def sortByCreatedDesc (es : List Entry) : List Entry :=
  es.foldr insertByCreatedDesc []

/-- `getAllEntry` (lines 152-167): only visible entries unless
`showAll === "true"`, newest first. -/
def getAllEntry (showAll : Option String) (es : List Entry) : List Entry :=
  sortByCreatedDesc (if showAll == some "true" then es else es.filter (·.visible))

/-- JavaScript `parseInt(x) || d` for a query parameter (`none` also covers a
`NaN` parse). -/
def jsOrNat (o : Option Nat) (d : Nat) : Nat :=
  match o with
  | none => d
  | some n => if n = 0 then d else n

structure PageRes where
  page : Nat
  totalPages : Nat
  totalEntries : Nat
  data : List Entry
  deriving DecidableEq, Repr

/-- `getPaginatedEntries` (lines 291-319). `totalPages` embeds
`Math.ceil(total / limit)` for a positive limit. -/
def getPaginatedEntries (page limit : Option Nat) (showAll : Option String)
    (es : List Entry) : PageRes :=
  let p := jsOrNat page 1
  let l := jsOrNat limit 10
  let skip := (p - 1) * l
  let query := if showAll == some "true" then es else es.filter (·.visible)
  let total := query.length
  { page := p,
    totalPages := (total + l - 1) / l,
    totalEntries := total,
    data := ((sortByCreatedDesc query).drop skip).take l }

/-- The characters JavaScript `trim()` strips: WhiteSpace (TAB U+0009,
VT U+000B, FF U+000C, SP U+0020, NBSP U+00A0, ZWNBSP U+FEFF and the Unicode
Zs category: U+1680, U+2000-U+200A, U+202F, U+205F, U+3000) and
LineTerminator (LF U+000A, CR U+000D, LS U+2028, PS U+2029). -/
def jsWhitespace (c : Char) : Bool :=
  c.toNat == 9 || c.toNat == 10 || c.toNat == 11 || c.toNat == 12
    || c.toNat == 13 || c.toNat == 32 || c.toNat == 160 || c.toNat == 5760
    || (8192 ≤ c.toNat && c.toNat ≤ 8202)
    || c.toNat == 8232 || c.toNat == 8233 || c.toNat == 8239
    || c.toNat == 8287 || c.toNat == 12288 || c.toNat == 65279

/-- JavaScript `String.prototype.trim`. -/
def jsTrim (s : String) : String :=
  ⟨((s.data.dropWhile jsWhitespace).reverse.dropWhile jsWhitespace).reverse⟩

def hexDigit (c : Char) : Bool :=
  c.isDigit || ('a' ≤ c && c ≤ 'f') || ('A' ≤ c && c ≤ 'F')

def octDigit (c : Char) : Bool := '0' ≤ c && c ≤ '7'

def binDigit (c : Char) : Bool := c == '0' || c == '1'

/-- `l` is a nonempty run of `p`-digits. -/
def allDigits1 (p : Char → Bool) (l : List Char) : Bool :=
  !l.isEmpty && l.all p

/-- The ExponentPart of the Number grammar: `e`/`E`, an optional sign, then
decimal digits. -/
def jsExponentPart : List Char → Bool
  | c :: rest =>
    (c == 'e' || c == 'E') &&
      (match rest with
       | '+' :: ds => allDigits1 Char.isDigit ds
       | '-' :: ds => allDigits1 Char.isDigit ds
       | ds => allDigits1 Char.isDigit ds)
  | [] => false

/-- StrUnsignedDecimalLiteral of the Number grammar: `Infinity`,
`digits [. digits] [exponent]`, or `. digits [exponent]`. -/
def jsUnsignedDecimal (l : List Char) : Bool :=
  if l == "Infinity".data then true
  else
    let intPart := l.takeWhile Char.isDigit
    let rest := l.dropWhile Char.isDigit
    match rest with
    | [] => !intPart.isEmpty
    | '.' :: rest2 =>
      let fracPart := rest2.takeWhile Char.isDigit
      let rest3 := rest2.dropWhile Char.isDigit
      (!intPart.isEmpty || !fracPart.isEmpty) &&
        (rest3.isEmpty || jsExponentPart rest3)
    | _ => !intPart.isEmpty && jsExponentPart rest

/-- StrNumericLiteral of the Number grammar: an optionally signed decimal
literal, or an unsigned `0x`/`0o`/`0b` literal. -/
def jsStrNumeric : List Char → Bool
  | [] => true
  | '+' :: rest => jsUnsignedDecimal rest
  | '-' :: rest => jsUnsignedDecimal rest
  | '0' :: c :: rest =>
    if c == 'x' || c == 'X' then allDigits1 hexDigit rest
    else if c == 'o' || c == 'O' then allDigits1 octDigit rest
    else if c == 'b' || c == 'B' then allDigits1 binDigit rest
    else jsUnsignedDecimal ('0' :: c :: rest)
  | l => jsUnsignedDecimal l

/-- JavaScript `isNaN(q)` for a string argument: `Number(q)` is `NaN` exactly
when the trimmed string is nonempty and is not a StrNumericLiteral (the empty
string converts to 0, not `NaN`). -/
def jsIsNaN (s : String) : Bool := !jsStrNumeric (jsTrim s).data

/-- Numeric value of a hexadecimal digit character. -/
def hexDigitVal (c : Char) : Nat :=
  if c.isDigit then c.toNat - 48
  else if 'a' ≤ c && c ≤ 'f' then c.toNat - 87
  else c.toNat - 55

/-- The leading run of `p`-digits of `l` read as a base-`base` number
(`none` when there is no leading digit). -/
def parseDigitRun (p : Char → Bool) (base : Nat) (val : Char → Nat)
    (l : List Char) : Option Nat :=
  if (l.takeWhile p).isEmpty then none
  else some ((l.takeWhile p).foldl (fun a c => a * base + val c) 0)

/-- JavaScript `parseInt` after sign handling: a `0x`/`0X` prefix switches to
hexadecimal, otherwise the leading decimal digit run is taken. -/
def jsParseIntCore : List Char → Option Nat
  | '0' :: c :: rest =>
    if c == 'x' || c == 'X' then parseDigitRun hexDigit 16 hexDigitVal rest
    else parseDigitRun Char.isDigit 10 decDigitVal ('0' :: c :: rest)
  | l => parseDigitRun Char.isDigit 10 decDigitVal l

/-- JavaScript `parseInt(q)` (no radix argument): trim, take an optional
sign, then the leading digit run (hexadecimal after `0x`); `none` is `NaN`
(e.g. for `"Infinity"` or `".5"`, both of which pass the `isNaN` guard). -/
def jsParseInt (s : String) : Option Int :=
  match (jsTrim s).data with
  | '+' :: rest => (jsParseIntCore rest).map fun n => (n : Int)
  | '-' :: rest => (jsParseIntCore rest).map fun n => -(n : Int)
  | l => (jsParseIntCore l).map fun n => (n : Int)

/-- One position of `$regex` matching with the `i` option, for patterns
whose only metacharacter is `.`: the dot matches any character, and any
other pattern character matches itself up to ASCII case folding
(`Char.toLower` folds exactly A-Z, matching PCRE's default caseless
behavior, which does not fold beyond ASCII without the UCP option). -/
def charMatches (p c : Char) : Bool :=
  p == '.' || p.toLower == c.toLower

/-- Does the pattern match starting at the head of the text? -/
def matchHere : List Char → List Char → Bool
  | [], _ => true
  | _ :: _, [] => false
  | p :: ps, c :: cs => charMatches p c && matchHere ps cs

/-- Unanchored `$regex` matching (`/pat/i.test(s)`). This is the exact
PCRE semantics for patterns whose only metacharacter is `.` (dot and
literal characters only) — the fragment every theorem below instantiates it
on. The program's behavior on other patterns is outside this model: a
pattern with further metacharacters matches as a general regex, and an
invalid pattern (such as `"("`) makes the storage query throw, which the
handler's catch turns into a 500 response; both are recorded with claim
C5. -/
def regexSearch (pat : List Char) : List Char → Bool
  | [] => matchHere pat []
  | c :: cs => matchHere pat (c :: cs) || regexSearch pat cs

/-- Line 338-341's `$or` filter. The customer arm is
`{ $regex: q, $options: "i" }`. For the receipt arm, the NewEntry schema is
not under `src/`; modelled from the spec: `receiptNo` "matches … by exact
numeric equality when the query parses as a number", i.e. the stored
receipt's numeric value equals `parseInt(q)`. When `isNaN(q)` the arm is
`{ $exists: false }`, which matches no entry since every stored entry has a
receipt number; when `isNaN(q)` is false but `parseInt(q)` is `NaN` (e.g.
`q = ".5"` or `"Infinity"`) the filter value is `NaN`, which equals no
stored receipt. -/
def searchMatches (q : String) (e : Entry) : Bool :=
  regexSearch q.data e.customer.data ||
    (if jsIsNaN q then false
     else
       match jsParseInt q with
       | none => false
       | some v => ((decodeDecString e.receiptNo : Int) == v))

inductive SearchRes
  | badRequest
  | notFound
  | ok (entries : List Entry)
  deriving DecidableEq, Repr

/-- `searchEntry` (lines 321-357). -/
def searchEntry (q showAll : Option String) (es : List Entry) : SearchRes :=
  match q with
  | none => .badRequest
  | some qs =>
    if jsTrim qs = "" then .badRequest
    else
      let ms := es.filter fun e =>
        (showAll == some "true" || e.visible) && searchMatches qs e
      if ms.isEmpty then .notFound else .ok ms

/-! ### Time-zone model

Timestamps are UTC minutes since the epoch. A time zone is an offset in
minutes added to UTC clock time; Asia/Kolkata is a fixed +330 (no DST), and
the server's locale is an arbitrary fixed offset `serverOffset`. A calendar
day in a zone is identified by its index: the floor of the zoned time over
1440 minutes. -/

/-- The calendar-day index of a timestamp in Asia/Kolkata. -/
def istDayIndex (t : Int) : Int := (t + 330).fdiv 1440

/-- The calendar-day index of a timestamp in UTC. -/
def utcDayIndex (t : Int) : Int := t.fdiv 1440

/-- Line 491: `dayjs().tz("Asia/Kolkata").startOf("day").toDate()` — the UTC
minute at which today's Asia/Kolkata day begins. -/
def istStartOfDay (now : Int) : Int := istDayIndex now * 1440 - 330

/-- Line 492: `endOf("day")` — the last minute of today's Asia/Kolkata day
(at this model's minute granularity). -/
def istEndOfDay (now : Int) : Int := istStartOfDay now + 1439

/-! ### getPendingDeliveries summary (lines 478-554, no `type` parameter) -/

/-- The summary payload: per-status counts, today's expected/received counts,
and the grand total (line 546-550 sums the four status counts, in source
order pending + collected + delivered + processedAndPacked). -/
structure Summary where
  pending : Nat
  collected : Nat
  processedAndPacked : Nat
  delivered : Nat
  todayExpected : Nat
  todayReceived : Nat
  total : Nat
  deriving DecidableEq, Repr

/-- Is `t` within today's Asia/Kolkata window `[startOfToday, endOfToday]`? -/
def inTodayWindow (now t : Int) : Bool :=
  decide (istStartOfDay now ≤ t) && decide (t ≤ istEndOfDay now)

/-- The summary branch of `getPendingDeliveries` (lines 495-554). The
aggregation groups in-scope entries by `status` and lines 524-534 keep only
the four known statuses (a missing or unknown status is dropped), which is
embedded as one direct count per known status. `todayExpected` counts
in-scope entries whose `pickupAndDelivery.expectedDeliveryDate` falls in
today's window and whose status is not `delivered` (an absent date matches no
range query); `todayReceived` counts in-scope entries created today. -/
def getPendingDeliveriesSummary (showAll : Option String) (now : Int)
    (es : List Entry) : Summary :=
  let scope := if showAll == some "true" then es else es.filter (·.visible)
  let p := countStatus "pending" scope
  let c := countStatus "collected" scope
  let pp := countStatus "processedAndPacked" scope
  let d := countStatus "delivered" scope
  let texp := (scope.filter fun e =>
    (match e.pickupAndDelivery.expectedDeliveryDate with
     | none => false
     | some t => inTodayWindow now t) && !(e.status == some "delivered")).length
  let trec := (scope.filter fun e => inTodayWindow now e.createdAt).length
  { pending := p, collected := c, processedAndPacked := pp, delivered := d,
    todayExpected := texp, todayReceived := trec,
    total := p + c + d + pp }

/-! ### getRecentOrdersCount weekly buckets (lines 392-456) -/

/-- `$sum: "$charges.totalAmount"` over one entry (0 when `charges` is
absent). -/
def entryAmount (e : Entry) : Int :=
  match e.charges with
  | none => 0
  | some ch => ch.totalAmount

structure DayBucket where
  day : Int
  totalSales : Int
  orderCount : Nat
  deriving DecidableEq, Repr

/-- Lines 396-400: `new Date(now.getFullYear(), now.getMonth(),
now.getDate() - 6)` — midnight, in the server's local zone, of the server's
local day six days before now. -/
def weeklyWindowStart (serverOffset now : Int) : Int :=
  ((now + serverOffset).fdiv 1440 - 6) * 1440 - serverOffset

/-- The `weeklyData` buckets of `getRecentOrdersCount` (lines 392-456): the
aggregation matches entries with `createdAt` at or after the server-local
window start and groups them with `$dateToString "%Y-%m-%d"`, which with no
`timezone` option formats in UTC; the zero-fill loop (lines 445-456) labels
the seven buckets with `toISOString` day strings of now minus 6..0 days,
also UTC days. Bucket `k` (0-based, oldest first) therefore collects entries
of UTC day `utcDayIndex now - (6 - k)` that passed the match. -/
def weeklyData (serverOffset now : Int) (es : List Entry) : List DayBucket :=
  (List.range 7).map fun k =>
    let day := utcDayIndex (now - (6 - (k : Int)) * 1440)
    let bucket := es.filter fun e =>
      decide (weeklyWindowStart serverOffset now ≤ e.createdAt) &&
        (utcDayIndex e.createdAt == day)
    ⟨day, (bucket.map entryAmount).sum, bucket.length⟩

/-- Written from the spec's words, for comparison with `weeklyData`: per-day
buckets of the trailing 7 days inclusive of today, with day boundaries in
the fixed Asia/Kolkata time zone regardless of server locale. -/
def weeklyDataSpecIST (now : Int) (es : List Entry) : List DayBucket :=
  (List.range 7).map fun k =>
    let day := istDayIndex now - (6 - (k : Int))
    let bucket := es.filter fun e => istDayIndex e.createdAt == day
    ⟨day, (bucket.map entryAmount).sum, bucket.length⟩

/-! ### Spec-side definition of case-insensitive substring matching -/

/-- Does the needle match the beginning of the text, case-insensitively? -/
def startMatchCI : List Char → List Char → Bool
  | [], _ => true
  | _ :: _, [] => false
  | a :: as, b :: bs => (a.toLower == b.toLower) && startMatchCI as bs

/-- Case-insensitive substring occurrence (the spec's reading of the search's
customer matching). -/
def substrCI : List Char → List Char → Bool
  | pat, [] => startMatchCI pat []
  | pat, c :: cs => startMatchCI pat (c :: cs) || substrCI pat cs

/-- `containsCI needle hay`: the spec's "customer contains q as a
case-insensitive substring". -/
def containsCI (needle hay : String) : Bool :=
  substrCI needle.data hay.data

/-! ### Sample data (used by the witnesses) -/

def sampleCustomer : CustomerRec := ⟨7, "9876543210"⟩

def sampleBody : CreateBody :=
  { customer := some "Acme",
    customerId := some 7,
    products := some [⟨"shirt", none⟩],
    charges := some ⟨none, 100⟩,
    pickupAndDelivery := some ⟨some 500, none, none, none⟩,
    expectedDeliveryDate := some 500,
    discount := none,
    remarks := none }

def sampleDB : DB :=
  { customers := [sampleCustomer], receipt := some 1, entries := [], stat := none }

def sampleCreatedEntry : Entry :=
  createdEntry sampleBody 11 100 "9876543210" (padStart 4 '0' (natToDecString 1))

def sampleDB1 : DB :=
  { customers := [sampleCustomer], receipt := some 2,
    entries := [sampleCreatedEntry], stat := some ⟨1, 0, 0, 0⟩ }

def entryOddStatus : Entry :=
  { id := 21, customer := "xyz", customerPhone := "9123456789", customerId := 8,
    receiptNo := "0002", discount := 0, remarks := "",
    expectedDeliveryDate := none, products := [], charges := none,
    pickupAndDelivery := ⟨none, none, none, none⟩, status := none,
    visible := true, createdAt := 30 }

def entryHidden : Entry :=
  { id := 31, customer := "hidden co", customerPhone := "9000000000",
    customerId := 9, receiptNo := "0003", discount := 0, remarks := "",
    expectedDeliveryDate := none, products := [], charges := none,
    pickupAndDelivery := ⟨none, none, none, none⟩, status := some "pending",
    visible := false, createdAt := 60 }

/-- An entry created at 23:30 UTC of epoch day 0, i.e. 05:00 of epoch day 1
in Asia/Kolkata. -/
def entryLate : Entry :=
  { id := 41, customer := "late co", customerPhone := "9111111111",
    customerId := 10, receiptNo := "0004", discount := 0, remarks := "",
    expectedDeliveryDate := none, products := [], charges := some ⟨some 0, 500⟩,
    pickupAndDelivery := ⟨none, none, none, none⟩, status := some "pending",
    visible := true, createdAt := 1410 }

def entryAbc : Entry :=
  { id := 51, customer := "abc", customerPhone := "9222222222",
    customerId := 12, receiptNo := "0001", discount := 0, remarks := "",
    expectedDeliveryDate := none, products := [], charges := none,
    pickupAndDelivery := ⟨none, none, none, none⟩, status := some "pending",
    visible := true, createdAt := 10 }

/-! ### The receipt rendering decodes injectively -/

theorem decDigitVal_digitChar {d : Nat} (h : d < 10) :
    decDigitVal (digitChar d) = d := by
  interval_cases d <;> decide

theorem foldl_decodeStep_digits (f : Nat) :
    ∀ n a, n ≤ f →
      ((decDigitsAux f n).reverse.map digitChar).foldl decodeStep a
        = a * 10 ^ (decDigitsAux f n).length + n := by
  induction f with
  | zero =>
    intro n a hn
    interval_cases n
    simp [decDigitsAux]
  | succ f ih =>
    intro n a hn
    match n with
    | 0 => simp [decDigitsAux]
    | n + 1 =>
      have hdiv : (n + 1) / 10 ≤ f := by
        have h1 : (n + 1) / 10 < n + 1 := Nat.div_lt_self (Nat.succ_pos n) (by omega)
        omega
      have hmod : (n + 1) % 10 < 10 := Nat.mod_lt _ (by omega)
      have hrec := ih ((n + 1) / 10) a hdiv
      simp only [decDigitsAux, List.reverse_cons, List.map_append, List.map_cons,
        List.map_nil, List.foldl_append, List.foldl_cons, List.foldl_nil, hrec,
        List.length_cons]
      rw [decodeStep, decDigitVal_digitChar hmod, pow_succ, ← mul_assoc]
      have hdm : 10 * ((n + 1) / 10) + (n + 1) % 10 = n + 1 :=
        Nat.div_add_mod (n + 1) 10
      generalize a * 10 ^ (decDigitsAux f ((n + 1) / 10)).length = A
      omega

/-- Reading back a zero-padded decimal rendering of `n` recovers `n`. -/
theorem decode_padStart_natToDecString (k : Nat) (n : Nat) :
    decodeDecString (padStart k '0' (natToDecString n)) = n := by
  have hzeros : ∀ m, (List.replicate m '0').foldl decodeStep 0 = 0 := by
    intro m
    induction m with
    | zero => rfl
    | succ m ih => simpa [List.replicate_succ, decodeStep, decDigitVal] using ih
  unfold decodeDecString padStart
  simp only [List.foldl_append, hzeros]
  by_cases h0 : n = 0
  · subst h0; rfl
  · simp only [natToDecString, h0, if_false]
    have := foldl_decodeStep_digits n n 0 (Nat.le_refl n)
    simpa [decDigits] using this

/-- The padded receipt rendering is injective: distinct counter values give
distinct receipt strings. -/
theorem padStart_natToDecString_inj {k m n : Nat}
    (h : padStart k '0' (natToDecString m) = padStart k '0' (natToDecString n)) :
    m = n := by
  have := congrArg decodeDecString h
  rwa [decode_padStart_natToDecString, decode_padStart_natToDecString] at this

/-! ### Claim C1 -/

/-- Claim C1 (code bug): the fetch-then-save allocation in `createNewentry` is
not atomic. With the counter starting at 1 and two concurrent entry creations
interleaved read, read, write, write (schedule `[0, 1, 0, 1]`), both callers
are delivered receipt value 1: the results are not distinct (value 1 is
duplicated and value 2 is skipped), violating exactly-once delivery. A
serialized schedule of the same two allocations delivers 1 and 2. -/
theorem receipt_allocator_interleaving_duplicate :
    allocResults (allocRun [0, 1, 0, 1] ⟨1, [.ready, .ready]⟩) = [1, 1]
      ∧ ¬ (allocResults (allocRun [0, 1, 0, 1] ⟨1, [.ready, .ready]⟩)).Nodup
      ∧ allocResults (allocRun [0, 0, 1, 1] ⟨1, [.ready, .ready]⟩) = [1, 2] := by
  refine ⟨rfl, ?_, rfl⟩
  decide

/-! ### Helper lemmas about the handlers -/

/-- What a successful `createNewentry` did: it read some counter value, saved
the incremented counter, and saved an entry carrying the padded rendering of
the value read. -/
theorem createNewentry_created {body : CreateBody} {newId : Nat} {now : Int}
    {sf : Bool} {db : DB} {e : Entry} {db' : DB} {tr : List Event}
    (h : createNewentry body newId now sf db = (.created e, db', tr)) :
    ∃ current cust,
      db.receipt = some current
        ∧ db.customers.find? (fun c => c.id == body.customerId.getD 0) = some cust
        ∧ e = createdEntry body newId now cust.phone
            (padStart 4 '0' (natToDecString current))
        ∧ db' = { db with
                    receipt := some (current + 1),
                    entries := e :: db.entries,
                    stat := manualUpdateStats sf (e :: db.entries) db.stat }
        ∧ tr = [.counterSave (current + 1), .entrySave newId,
                .statsRecompute sf] := by
  unfold createNewentry at h
  split at h
  · exact absurd h (by simp)
  · cases hf : db.customers.find? fun c => c.id == body.customerId.getD 0 with
    | none => rw [hf] at h; exact absurd h (by simp)
    | some cust =>
      rw [hf] at h
      cases hr : db.receipt with
      | none => rw [hr] at h; exact absurd h (by simp)
      | some current =>
        rw [hr] at h
        simp only [Prod.mk.injEq, CreateRes.created.injEq] at h
        obtain ⟨he, hdb, htr⟩ := h
        exact ⟨current, cust, rfl, rfl, he.symm, by rw [← hdb, ← he], htr.symm⟩

/-- What a successful `updateEntry` did. -/
theorem updateEntry_ok {id : Nat} {b : UpdateBody} {now : Int} {sf : Bool}
    {db : DB} {e' : Entry} {db' : DB} {tr : List Event}
    (h : updateEntry id b now sf db = (.ok e', db', tr)) :
    ∃ e, db.entries.find? (fun x => x.id == id) = some e
      ∧ e' = applyUpdateBody e b now
      ∧ db' = { db with
                  entries := saveEntryById id e' db.entries,
                  stat := manualUpdateStats sf (saveEntryById id e' db.entries) db.stat }
      ∧ tr = [.entrySave id, .statsRecompute sf] := by
  unfold updateEntry at h
  cases hf : db.entries.find? fun x => x.id == id with
  | none => rw [hf] at h; exact absurd h (by simp)
  | some e =>
    rw [hf] at h
    simp only [Prod.mk.injEq, UpdateRes.ok.injEq] at h
    obtain ⟨he, hdb, htr⟩ := h
    exact ⟨e, rfl, he.symm, by rw [← hdb, ← he], htr.symm⟩

/-! ### Claim C2 -/

/-- Claim C2: a successful entry creation assigns as receipt number the
decimal rendering of the counter's current value zero-padded to at least 4
digits; the incremented counter is saved before the entry is persisted (the
`counterSave` event precedes the `entrySave` event in the trace, matching
line 121 before line 137), and the database afterwards holds counter value
`current + 1`, so a subsequent sequential creation allocates a different
receipt number. -/
theorem create_receipt_allocation (body : CreateBody) (newId : Nat) (now : Int)
    (sf : Bool) (db : DB) (c : Nat) (e : Entry) (db' : DB) (tr : List Event)
    (hc : db.receipt = some c)
    (h : createNewentry body newId now sf db = (.created e, db', tr)) :
    e.receiptNo = padStart 4 '0' (natToDecString c)
      ∧ db'.receipt = some (c + 1)
      ∧ tr = [.counterSave (c + 1), .entrySave newId, .statsRecompute sf]
      ∧ ∀ body2 newId2 now2 sf2 e2 db2 tr2,
          createNewentry body2 newId2 now2 sf2 db' = (.created e2, db2, tr2) →
          e2.receiptNo ≠ e.receiptNo := by
  obtain ⟨current, cust, hr, -, he, hdb, htr⟩ := createNewentry_created h
  have hcc : current = c := by rw [hr] at hc; exact Option.some_injective _ hc
  subst hcc
  have hrec : e.receiptNo = padStart 4 '0' (natToDecString current) := by
    rw [he]; rfl
  refine ⟨hrec, by rw [hdb], htr, ?_⟩
  intro body2 newId2 now2 sf2 e2 db2 tr2 h2
  obtain ⟨current2, cust2, hr2, -, he2, -, -⟩ := createNewentry_created h2
  have hc2 : current2 = current + 1 := by
    rw [hdb] at hr2
    have hr2' : some (current + 1) = some current2 := hr2
    exact (Option.some_injective _ hr2').symm
  have hrec2 : e2.receiptNo = padStart 4 '0' (natToDecString (current + 1)) := by
    rw [he2, hc2]; rfl
  rw [hrec2, hrec]
  intro hcontra
  exact absurd (padStart_natToDecString_inj hcontra) (by omega)

theorem create_receipt_allocation_witness :
    sampleCreatedEntry.receiptNo = padStart 4 '0' (natToDecString 1)
      ∧ sampleDB1.receipt = some 2 := by
  have h : createNewentry sampleBody 11 100 false sampleDB
      = (.created sampleCreatedEntry, sampleDB1,
         [.counterSave 2, .entrySave 11, .statsRecompute false]) := by decide
  have hmain := create_receipt_allocation sampleBody 11 100 false sampleDB 1
    sampleCreatedEntry sampleDB1 _ rfl h
  exact ⟨hmain.1, hmain.2.1⟩

/-! ### Claim C3 -/

/-- Claim C3: for create, update and delete, the response is entirely
independent of whether the stats recompute's underlying work fails (the
recompute, modelled from the spec, never rejects), and an update whose entry
mutation succeeds reports success even when the recompute fails. -/
theorem stats_failure_not_surfaced :
    (∀ body newId now db sf1 sf2,
        (createNewentry body newId now sf1 db).1
          = (createNewentry body newId now sf2 db).1)
      ∧ (∀ id b now db sf1 sf2,
          (updateEntry id b now sf1 db).1 = (updateEntry id b now sf2 db).1)
      ∧ (∀ id db sf1 sf2, (deleteEntry id sf1 db).1 = (deleteEntry id sf2 db).1)
      ∧ (∀ id b now db e, db.entries.find? (fun x => x.id == id) = some e →
          (updateEntry id b now true db).1 = .ok (applyUpdateBody e b now)) := by
  refine ⟨?_, ?_, ?_, ?_⟩
  · intro body newId now db sf1 sf2
    unfold createNewentry
    split
    · rfl
    · cases hf : db.customers.find? fun c => c.id == body.customerId.getD 0 <;>
        cases hr : db.receipt <;> simp
  · intro id b now db sf1 sf2
    unfold updateEntry
    cases hf : db.entries.find? fun x => x.id == id <;> simp
  · intro id db sf1 sf2
    unfold deleteEntry
    cases hf : db.entries.find? fun x => x.id == id <;> simp
  · intro id b now db e hf
    unfold updateEntry
    rw [hf]

theorem stats_failure_not_surfaced_witness :
    (updateEntry 11 ⟨none, none, some "delivered"⟩ 200 true sampleDB1).1
      = .ok (applyUpdateBody sampleCreatedEntry ⟨none, none, some "delivered"⟩ 200) :=
  stats_failure_not_surfaced.2.2.2 11 ⟨none, none, some "delivered"⟩ 200 sampleDB1
    sampleCreatedEntry (by decide)

/-! ### Claim C6 -/

/-- The stamp a patched status installs, regardless of the document's previous
state. -/
theorem applyUpdateBody_stamps (e : Entry) (b : UpdateBody) (now : Int) :
    (b.status = some "delivered" →
        (applyUpdateBody e b now).pickupAndDelivery.deliveryDate = some now)
      ∧ (b.status = some "collected" →
          (applyUpdateBody e b now).pickupAndDelivery.pickupDate = some now)
      ∧ (b.status = some "processedAndPacked" →
          (applyUpdateBody e b now).pickupAndDelivery.processedAndPackedDate
            = some now) := by
  refine ⟨?_, ?_, ?_⟩ <;> intro hs <;> simp [applyUpdateBody, hs]

/-- Claim C6: a successful update whose patch sets `status` to `delivered`
(resp. `collected`, `processedAndPacked`) stamps
`pickupAndDelivery.deliveryDate` (resp. `pickupDate`,
`processedAndPackedDate`) with the update's current time, for every stored
entry — in particular also when the entry already had that status — and
repeating the same update against the resulting database stamps the new
current time, so a later repetition yields a later timestamp. -/
theorem status_stamps_unconditional (id : Nat) (b : UpdateBody) (now : Int)
    (sf : Bool) (db : DB) (e' : Entry) (db' : DB) (tr : List Event)
    (h : updateEntry id b now sf db = (.ok e', db', tr)) :
    (b.status = some "delivered" →
        e'.pickupAndDelivery.deliveryDate = some now)
      ∧ (b.status = some "collected" →
          e'.pickupAndDelivery.pickupDate = some now)
      ∧ (b.status = some "processedAndPacked" →
          e'.pickupAndDelivery.processedAndPackedDate = some now)
      ∧ ∀ now2 sf2 e2 db2 tr2,
          updateEntry id b now2 sf2 db' = (.ok e2, db2, tr2) →
          (b.status = some "delivered" →
              e2.pickupAndDelivery.deliveryDate = some now2)
            ∧ (b.status = some "collected" →
                e2.pickupAndDelivery.pickupDate = some now2)
            ∧ (b.status = some "processedAndPacked" →
                e2.pickupAndDelivery.processedAndPackedDate = some now2) := by
  obtain ⟨e, -, he', -, -⟩ := updateEntry_ok h
  subst he'
  refine ⟨(applyUpdateBody_stamps e b now).1, (applyUpdateBody_stamps e b now).2.1,
    (applyUpdateBody_stamps e b now).2.2, ?_⟩
  intro now2 sf2 e2 db2 tr2 h2
  obtain ⟨eBase, -, he2, -, -⟩ := updateEntry_ok h2
  subst he2
  exact applyUpdateBody_stamps eBase b now2

theorem status_stamps_unconditional_witness :
    ((applyUpdateBody sampleCreatedEntry ⟨none, none, some "delivered"⟩ 200)
        |>.pickupAndDelivery.deliveryDate) = some 200 := by
  have h : updateEntry 11 ⟨none, none, some "delivered"⟩ 200 false sampleDB1
      = (.ok (applyUpdateBody sampleCreatedEntry ⟨none, none, some "delivered"⟩ 200),
         { sampleDB1 with
             entries := saveEntryById 11
               (applyUpdateBody sampleCreatedEntry ⟨none, none, some "delivered"⟩ 200)
               sampleDB1.entries,
             stat := manualUpdateStats false
               (saveEntryById 11
                 (applyUpdateBody sampleCreatedEntry ⟨none, none, some "delivered"⟩ 200)
                 sampleDB1.entries)
               sampleDB1.stat },
         [.entrySave 11, .statsRecompute false]) := by decide
  exact (status_stamps_unconditional 11 ⟨none, none, some "delivered"⟩ 200 false
    sampleDB1 _ _ _ h).1 rfl

/-! ### Claim C7 -/

/-- Claim C7: the create and update paths apply the identical tax-defaulting
rule (the duplicated code of lines 91-103 and 173-185): a line item with an
absent `tax` gets `tax = 0` and is otherwise unchanged, a present `charges`
object with an absent `taxAmount` gets `taxAmount = 0`, and the persisted
entry of a successful create (resp. the patched fields of a successful
update) carries exactly the normalized products and charges. -/
theorem tax_defaulting_create_update :
    (∀ ps, createNormalizeProducts ps = updateNormalizeProducts ps)
      ∧ (∀ ch, createNormalizeCharges ch = updateNormalizeCharges ch)
      ∧ (∀ p : Product, p.tax = none → defaultProductTax p = { p with tax := some 0 })
      ∧ (∀ (p : Product) t, p.tax = some t → defaultProductTax p = p)
      ∧ (∀ ch : Charges, ch.taxAmount = none →
          createNormalizeCharges (some ch) = some { ch with taxAmount := some 0 })
      ∧ (∀ body newId now sf db e db' tr,
          createNewentry body newId now sf db = (.created e, db', tr) →
          e.products = (createNormalizeProducts body.products).getD []
            ∧ e.charges = createNormalizeCharges body.charges)
      ∧ (∀ id b now sf db e' db' tr,
          updateEntry id b now sf db = (.ok e', db', tr) →
          (∀ ps, b.products = some ps → e'.products = ps.map defaultProductTax)
            ∧ ∀ ch, b.charges = some ch →
                e'.charges = updateNormalizeCharges (some ch)) := by
  refine ⟨fun ps => rfl, fun ch => rfl, ?_, ?_, ?_, ?_, ?_⟩
  · intro p hp
    simp [defaultProductTax, hp]
  · intro p t hp
    simp [defaultProductTax, hp]
  · intro ch hch
    simp [createNormalizeCharges, hch]
  · intro body newId now sf db e db' tr h
    obtain ⟨current, cust, -, -, he, -, -⟩ := createNewentry_created h
    subst he
    exact ⟨rfl, rfl⟩
  · intro id b now sf db e' db' tr h
    obtain ⟨e, -, he', -, -⟩ := updateEntry_ok h
    subst he'
    constructor
    · intro ps hps
      simp [applyUpdateBody, hps, updateNormalizeProducts]
    · intro ch hch
      simp only [applyUpdateBody, hch]
      cases hd : updateNormalizeCharges (some ch) with
      | none => simp [updateNormalizeCharges] at hd; split at hd <;> simp_all
      | some ch' => simp

theorem tax_defaulting_create_update_witness :
    sampleCreatedEntry.products
        = (createNormalizeProducts sampleBody.products).getD []
      ∧ sampleCreatedEntry.charges = createNormalizeCharges sampleBody.charges
      ∧ defaultProductTax ⟨"shirt", none⟩ = ⟨"shirt", some 0⟩ := by
  have h : createNewentry sampleBody 11 100 false sampleDB
      = (.created sampleCreatedEntry, sampleDB1,
         [.counterSave 2, .entrySave 11, .statsRecompute false]) := by decide
  have hmain := tax_defaulting_create_update.2.2.2.2.2.1 sampleBody 11 100 false
    sampleDB sampleCreatedEntry sampleDB1 _ h
  exact ⟨hmain.1, hmain.2, tax_defaulting_create_update.2.2.1 ⟨"shirt", none⟩ rfl⟩

/-! ### Claim C9 -/

/-- Replacing the found document leaves it findable, now with the new
contents. -/
theorem find?_saveEntryById (id : Nat) (e e' : Entry) (l : List Entry)
    (hf : l.find? (fun x => x.id == id) = some e) (hid : (e'.id == id) = true) :
    (saveEntryById id e' l).find? (fun x => x.id == id) = some e' := by
  induction l with
  | nil => simp at hf
  | cons a t ih =>
    by_cases h : (a.id == id) = true
    · simp only [saveEntryById, List.map_cons]
      rw [if_pos h]
      exact List.find?_cons_of_pos _ hid
    · have hbf : (a.id == id) = false := by simpa using h
      simp only [List.find?_cons, hbf] at hf
      simp only [saveEntryById, List.map_cons]
      rw [if_neg h]
      simp only [List.find?_cons, hbf]
      exact ih hf

/-- Evaluation of `toggleVisibility` when the entry is found. -/
theorem toggleVisibility_found (id : Nat) (db : DB) (e : Entry)
    (hf : db.entries.find? (fun x => x.id == id) = some e) :
    toggleVisibility id db
      = (.ok id (!e.visible),
         { db with entries := (saveEntryById id { e with visible := !e.visible } db.entries) }) := by
  simp only [toggleVisibility, hf]

/-- Claim C9: the visibility toggle flips `visible` and changes nothing else —
the stored entry keeps its `customer`, `receiptNo`, `products`, `charges`,
`status` and `pickupAndDelivery` (and all remaining fields), the rest of the
database (customers, receipt counter, stats record) is untouched — and
toggling a second time restores the original entry exactly. -/
theorem toggle_visibility_frame (id : Nat) (db : DB) (e : Entry)
    (hf : db.entries.find? (fun x => x.id == id) = some e) :
    (toggleVisibility id db).1 = .ok id (!e.visible)
      ∧ (toggleVisibility id db).2.entries.find? (fun x => x.id == id)
          = some { e with visible := !e.visible }
      ∧ ({ e with visible := !e.visible }).customer = e.customer
      ∧ ({ e with visible := !e.visible }).receiptNo = e.receiptNo
      ∧ ({ e with visible := !e.visible }).products = e.products
      ∧ ({ e with visible := !e.visible }).charges = e.charges
      ∧ ({ e with visible := !e.visible }).status = e.status
      ∧ ({ e with visible := !e.visible }).pickupAndDelivery = e.pickupAndDelivery
      ∧ (toggleVisibility id db).2.customers = db.customers
      ∧ (toggleVisibility id db).2.receipt = db.receipt
      ∧ (toggleVisibility id db).2.stat = db.stat
      ∧ (toggleVisibility id (toggleVisibility id db).2).2.entries.find?
          (fun x => x.id == id) = some e := by
  have hid : (e.id == id) = true := by
    have h2 := List.find?_some hf
    exact h2
  have h1 := toggleVisibility_found id db e hf
  have hfind1 : (toggleVisibility id db).2.entries.find? (fun x => x.id == id)
      = some { e with visible := !e.visible } := by
    rw [h1]
    exact find?_saveEntryById id e _ db.entries hf hid
  refine ⟨by rw [h1], hfind1, rfl, rfl, rfl, rfl, rfl, rfl,
    by rw [h1], by rw [h1], by rw [h1], ?_⟩
  have h2 := toggleVisibility_found id (toggleVisibility id db).2
    { e with visible := !e.visible } hfind1
  have hstep2 : (saveEntryById id { e with visible := !(!e.visible) }
        (toggleVisibility id db).2.entries).find? (fun x => x.id == id)
      = some { e with visible := !(!e.visible) } :=
    find?_saveEntryById id { e with visible := !e.visible } _ _ hfind1 hid
  have hrestore : ({ e with visible := !(!e.visible) } : Entry) = e := by
    rw [Bool.not_not]
  rw [h2]
  show (saveEntryById id { e with visible := !(!e.visible) }
      (toggleVisibility id db).2.entries).find? (fun x => x.id == id) = some e
  rw [hstep2, hrestore]

theorem toggle_visibility_frame_witness :
    (toggleVisibility 11 sampleDB1).1 = .ok 11 false
      ∧ (toggleVisibility 11 (toggleVisibility 11 sampleDB1).2).2.entries.find?
          (fun x => x.id == 11) = some sampleCreatedEntry := by
  have h := toggle_visibility_frame 11 sampleDB1 sampleCreatedEntry (by decide)
  exact ⟨h.1, h.2.2.2.2.2.2.2.2.2.2.2⟩

/-! ### Claim C10 -/

/-- An entry with a different status does not change a status count. -/
theorem countStatus_cons_of_ne (s : String) (e : Entry) (es : List Entry)
    (h : e.status ≠ some s) :
    countStatus s (e :: es) = countStatus s es := by
  unfold countStatus
  rw [List.filter_cons_of_neg (by simpa using h)]

/-- Claim C10: in the summary branch of `getPendingDeliveries`, the reported
grand total is exactly the sum of the four per-status counts, and an in-scope
entry whose status is absent or outside the four known values contributes to
none of the per-status counts nor to the total. -/
theorem pending_summary_total (showAll : Option String) (now : Int)
    (es : List Entry) :
    (getPendingDeliveriesSummary showAll now es).total
        = (getPendingDeliveriesSummary showAll now es).pending
          + (getPendingDeliveriesSummary showAll now es).collected
          + (getPendingDeliveriesSummary showAll now es).processedAndPacked
          + (getPendingDeliveriesSummary showAll now es).delivered
      ∧ ∀ e : Entry,
          e.status ≠ some "pending" → e.status ≠ some "collected" →
          e.status ≠ some "processedAndPacked" → e.status ≠ some "delivered" →
          (getPendingDeliveriesSummary showAll now (e :: es)).pending
              = (getPendingDeliveriesSummary showAll now es).pending
            ∧ (getPendingDeliveriesSummary showAll now (e :: es)).collected
              = (getPendingDeliveriesSummary showAll now es).collected
            ∧ (getPendingDeliveriesSummary showAll now (e :: es)).processedAndPacked
              = (getPendingDeliveriesSummary showAll now es).processedAndPacked
            ∧ (getPendingDeliveriesSummary showAll now (e :: es)).delivered
              = (getPendingDeliveriesSummary showAll now es).delivered
            ∧ (getPendingDeliveriesSummary showAll now (e :: es)).total
              = (getPendingDeliveriesSummary showAll now es).total := by
  constructor
  · simp only [getPendingDeliveriesSummary]
    omega
  · intro e h1 h2 h3 h4
    have hscope : ∀ l : List Entry,
        (if showAll == some "true" then e :: l else (e :: l).filter (·.visible))
          = e :: (if showAll == some "true" then l else l.filter (·.visible))
        ∨ (if showAll == some "true" then e :: l else (e :: l).filter (·.visible))
          = (if showAll == some "true" then l else l.filter (·.visible)) := by
      intro l
      cases hs : (showAll == some "true") with
      | true => exact Or.inl rfl
      | false =>
        by_cases hv : e.visible
        · exact Or.inl (by simp [List.filter_cons, hv])
        · exact Or.inr (by simp [List.filter_cons, hv])
    simp only [getPendingDeliveriesSummary]
    rcases hscope es with hcons | hsame
    · rw [hcons]
      rw [countStatus_cons_of_ne _ _ _ h1, countStatus_cons_of_ne _ _ _ h2,
        countStatus_cons_of_ne _ _ _ h3, countStatus_cons_of_ne _ _ _ h4]
      exact ⟨rfl, rfl, rfl, rfl, rfl⟩
    · rw [hsame]
      exact ⟨rfl, rfl, rfl, rfl, rfl⟩

theorem pending_summary_total_witness :
    (getPendingDeliveriesSummary none 100 (entryOddStatus :: [sampleCreatedEntry])).total
      = (getPendingDeliveriesSummary none 100 [sampleCreatedEntry]).total :=
  ((pending_summary_total none 100 [sampleCreatedEntry]).2 entryOddStatus
    (by decide) (by decide) (by decide) (by decide)).2.2.2.2

/-! ### Claim C8 -/

theorem mem_insertByCreatedDesc (a e : Entry) (l : List Entry) :
    a ∈ insertByCreatedDesc e l ↔ a = e ∨ a ∈ l := by
  induction l with
  | nil => simp [insertByCreatedDesc]
  | cons x xs ih =>
    simp only [insertByCreatedDesc]
    split
    · simp [List.mem_cons]
    · simp only [List.mem_cons, ih]
      tauto

theorem mem_sortByCreatedDesc (a : Entry) (l : List Entry) :
    a ∈ sortByCreatedDesc l ↔ a ∈ l := by
  induction l with
  | nil => simp [sortByCreatedDesc]
  | cons x xs ih =>
    simp only [sortByCreatedDesc, List.foldr_cons] at ih ⊢
    rw [mem_insertByCreatedDesc, ih]
    simp [List.mem_cons]

/-- Claim C8: across the listing, pagination, search, and dashboard-summary
reads, a caller that does not pass `showAll=true` never sees an entry with
`visible = false`, and passing `showAll=true` lifts the visibility filter:
every stored entry is in the full listing, the pagination total counts all
entries, a hidden entry matching the search is returned, and a hidden entry
is counted by the summary (illustrated on the `pending` count) while being
ignored by the default summary. -/
theorem visibility_filtering :
    (∀ showAll es, showAll ≠ some "true" →
        ∀ e ∈ getAllEntry showAll es, e.visible = true)
      ∧ (∀ es (e : Entry), e ∈ es → e ∈ getAllEntry (some "true") es)
      ∧ (∀ page limit showAll es, showAll ≠ some "true" →
          ∀ e ∈ (getPaginatedEntries page limit showAll es).data, e.visible = true)
      ∧ (∀ page limit es,
          (getPaginatedEntries page limit (some "true") es).totalEntries = es.length)
      ∧ (∀ q showAll es ms, showAll ≠ some "true" →
          searchEntry q showAll es = .ok ms → ∀ e ∈ ms, e.visible = true)
      ∧ (∀ qs es (e : Entry), e ∈ es → searchMatches qs e = true → jsTrim qs ≠ "" →
          ∃ ms, searchEntry (some qs) (some "true") es = .ok ms ∧ e ∈ ms)
      ∧ (∀ (now : Int) es (e : Entry), e.visible = false →
          getPendingDeliveriesSummary none now (e :: es)
            = getPendingDeliveriesSummary none now es)
      ∧ (∀ (now : Int) es (e : Entry), e.status = some "pending" →
          (getPendingDeliveriesSummary (some "true") now (e :: es)).pending
            = (getPendingDeliveriesSummary (some "true") now es).pending + 1) := by
  have hbeq : ∀ showAll : Option String, showAll ≠ some "true" →
      (showAll == some "true") = false := by
    intro showAll h
    simpa using h
  refine ⟨?_, ?_, ?_, ?_, ?_, ?_, ?_, ?_⟩
  · intro showAll es hS e hm
    unfold getAllEntry at hm
    rw [mem_sortByCreatedDesc, hbeq showAll hS] at hm
    simpa using List.of_mem_filter hm
  · intro es e he
    unfold getAllEntry
    rw [mem_sortByCreatedDesc]
    simpa using he
  · intro page limit showAll es hS e hm
    simp only [getPaginatedEntries] at hm
    have h1 := List.take_subset _ _ hm
    have h2 := List.drop_subset _ _ h1
    rw [mem_sortByCreatedDesc, hbeq showAll hS] at h2
    simpa using List.of_mem_filter h2
  · intro page limit es
    simp [getPaginatedEntries]
  · intro q showAll es ms hS h e hm
    match q with
    | none => simp [searchEntry] at h
    | some qs =>
      simp only [searchEntry] at h
      split at h
      · exact absurd h (by simp)
      · split at h
        · exact absurd h (by simp)
        · simp only [SearchRes.ok.injEq] at h
          subst h
          have hp := List.of_mem_filter hm
          rw [hbeq showAll hS] at hp
          simp at hp
          exact hp.1
  · intro qs es e he hmatch htrim
    have hpred : (((some "true" == some "true" : Bool) || e.visible)
        && searchMatches qs e) = true := by
      simp [hmatch]
    have hmem : e ∈ es.filter fun x =>
        ((some "true" == some "true" : Bool) || x.visible) && searchMatches qs x :=
      List.mem_filter_of_mem he hpred
    refine ⟨_, ?_, hmem⟩
    have h0 : (es.filter fun x =>
        ((some "true" == some "true" : Bool) || x.visible) && searchMatches qs x) ≠ [] :=
      List.ne_nil_of_mem hmem
    have hne : (es.filter fun x =>
        ((some "true" == some "true" : Bool) || x.visible) && searchMatches qs x).isEmpty
        = false := by
      cases hL : (es.filter fun x =>
          ((some "true" == some "true" : Bool) || x.visible) && searchMatches qs x).isEmpty with
      | false => rfl
      | true => exact absurd (by simpa using hL) h0
    simp only [searchEntry, if_neg htrim]
    simp [hne]
    exact ⟨e, he, hmatch⟩
  · intro now es e hv
    have hfilter : (e :: es).filter (·.visible) = es.filter (·.visible) :=
      List.filter_cons_of_neg (by simp [hv])
    simp [getPendingDeliveriesSummary, hfilter]
  · intro now es e hs
    simp [getPendingDeliveriesSummary, countStatus, List.filter_cons, hs]

theorem visibility_filtering_witness :
    getPendingDeliveriesSummary none 100 [entryHidden, entryOddStatus]
        = getPendingDeliveriesSummary none 100 [entryOddStatus]
      ∧ entryOddStatus ∈ getAllEntry (some "true") [entryHidden, entryOddStatus] := by
  constructor
  · exact visibility_filtering.2.2.2.2.2.2.1 100 [entryOddStatus] entryHidden rfl
  · exact visibility_filtering.2.1 [entryHidden, entryOddStatus] entryOddStatus
      (by decide)

/-! ### Claim C4 -/

/-- Claim C4 (counterexample): the trailing-7-day buckets of
`getRecentOrdersCount` are not computed with Asia/Kolkata day boundaries.
With `now` = minute 1500 (01:00 UTC of epoch day 1) and a single entry
created at minute 1410 (23:30 UTC of day 0, but already 05:00 of day 1 in
Asia/Kolkata), the code buckets the entry into yesterday's slot, while
Asia/Kolkata bucketing (the spec's words, `weeklyDataSpecIST`) puts it in
today's: the two bucketings disagree, because minute 1410 lies on different
calendar days in UTC and in Asia/Kolkata. -/
theorem dashboard_bucketing_utc_vs_ist :
    (weeklyData 0 1500 [entryLate]).map DayBucket.orderCount
        = [0, 0, 0, 0, 0, 1, 0]
      ∧ (weeklyDataSpecIST 1500 [entryLate]).map DayBucket.orderCount
        = [0, 0, 0, 0, 0, 0, 1]
      ∧ weeklyData 0 1500 [entryLate] ≠ weeklyDataSpecIST 1500 [entryLate]
      ∧ istDayIndex 1410 ≠ utcDayIndex 1410 := by
  decide

theorem ist_window_iff (now t : Int) :
    (istStartOfDay now ≤ t ∧ t ≤ istEndOfDay now)
      ↔ istDayIndex t = istDayIndex now := by
  unfold istEndOfDay istStartOfDay istDayIndex
  rw [Int.fdiv_eq_ediv _ (by norm_num), Int.fdiv_eq_ediv _ (by norm_num)]
  omega

theorem inTodayWindow_eq_beq (now t : Int) :
    inTodayWindow now t = (istDayIndex t == istDayIndex now) := by
  have h := ist_window_iff now t
  cases hb : (istDayIndex t == istDayIndex now) with
  | true =>
    have heq : istDayIndex t = istDayIndex now := by simpa using hb
    have := h.mpr heq
    simp [inTodayWindow, this.1, this.2]
  | false =>
    have hne : ¬ istDayIndex t = istDayIndex now := by simpa using hb
    have hnot : ¬ (istStartOfDay now ≤ t ∧ t ≤ istEndOfDay now) := fun hw => hne (h.mp hw)
    simp only [inTodayWindow]
    rcases Decidable.not_and_iff_or_not.mp hnot with h1 | h1 <;> simp [h1]

theorem utcDayIndex_sub_days (t m : Int) :
    utcDayIndex (t - m * 1440) = utcDayIndex t - m := by
  unfold utcDayIndex
  rw [Int.fdiv_eq_ediv _ (by norm_num), Int.fdiv_eq_ediv _ (by norm_num)]
  omega

/-- Claim C4 (amended): the "today" windows of `getPendingDeliveries` are
exactly Asia/Kolkata calendar days — membership in
`[startOfToday, endOfToday]` coincides with having the same Asia/Kolkata day
index as `now`, independently of the server's locale, and the summary's
`todayReceived` counts precisely the visible entries created on today's
Asia/Kolkata day — whereas the trailing-7-day buckets of
`getRecentOrdersCount` are labelled with UTC day indices (`$dateToString`
with no time zone option). -/
theorem today_windows_ist_weekly_buckets_utc :
    (∀ now t : Int,
        (istStartOfDay now ≤ t ∧ t ≤ istEndOfDay now)
          ↔ istDayIndex t = istDayIndex now)
      ∧ (∀ now t : Int, inTodayWindow now t = (istDayIndex t == istDayIndex now))
      ∧ (∀ (now : Int) (es : List Entry),
          (getPendingDeliveriesSummary none now es).todayReceived
            = (es.filter fun e =>
                e.visible && (istDayIndex e.createdAt == istDayIndex now)).length)
      ∧ (∀ (serverOffset now : Int) (es : List Entry),
          (weeklyData serverOffset now es).map DayBucket.day
            = (List.range 7).map fun k => utcDayIndex now - (6 - (k : Int))) := by
  refine ⟨ist_window_iff, inTodayWindow_eq_beq, ?_, ?_⟩
  · intro now es
    simp only [getPendingDeliveriesSummary,
      show ((none : Option String) == some "true") = false from rfl,
      Bool.false_eq_true, if_false]
    rw [List.filter_filter]
    apply congrArg List.length
    apply List.filter_congr
    intro x hx
    rw [inTodayWindow_eq_beq, Bool.and_comm]
  · intro serverOffset now es
    simp only [weeklyData, List.map_map]
    apply List.map_congr_left
    intro k hk
    show utcDayIndex (now - (6 - (k : Int)) * 1440) = utcDayIndex now - (6 - (k : Int))
    exact utcDayIndex_sub_days now (6 - (k : Int))

theorem today_windows_ist_weekly_buckets_utc_witness :
    (getPendingDeliveriesSummary none 1500 [entryLate]).todayReceived
      = ([entryLate].filter fun e =>
          e.visible && (istDayIndex e.createdAt == istDayIndex 1500)).length :=
  today_windows_ist_weekly_buckets_utc.2.2.1 1500 [entryLate]

/-! ### Claim C5 -/

/-- Claim C5 (code bug): line 339 passes the raw query to `$regex`, so the
query is interpreted as a regular expression, not matched as the literal
substring the claim (and the spec, including its §8 example) require. At the
failing input `q = "."` the search returns the entry with customer `"abc"` —
the regex `.` matches any character — although `"."` is not a
case-insensitive substring of `"abc"` and does not parse as a number. (At
this input the regex model is exact: the pattern's only character is the
dot.) On queries that are not valid regexes at all, such as `"("`, the
storage query throws and the handler answers 500 instead of the claim's
404/200 — behavior outside this model and recorded in the claim's
divergence. -/
theorem search_regex_not_substring :
    searchEntry (some ".") none [entryAbc] = .ok [entryAbc]
      ∧ containsCI "." entryAbc.customer = false
      ∧ jsIsNaN "." = true := by
  decide

theorem matchHere_eq_startMatchCI (pat : List Char) (h : '.' ∉ pat) :
    ∀ s, matchHere pat s = startMatchCI pat s := by
  induction pat with
  | nil => intro s; rfl
  | cons p ps ih =>
    intro s
    cases s with
    | nil => rfl
    | cons c cs =>
      have hp : p ≠ '.' := fun hc => h (hc ▸ List.mem_cons_self p ps)
      have hps : '.' ∉ ps := fun hc => h (List.mem_cons_of_mem _ hc)
      simp only [matchHere, startMatchCI, charMatches]
      rw [show (p == '.') = false from by simpa using hp, ih hps cs]
      simp

/-- On a pattern free of regex metacharacters, the modelled `$regex`
matching is exactly case-insensitive substring containment — so the
divergence of claim C5 arises only on metacharacter queries, and the spec's
own example (`search("ABC")` matching customer `"abcd corp"` but not
`"xyz"`) behaves as the spec states. -/
theorem regexSearch_eq_substrCI (pat : List Char) (h : '.' ∉ pat) :
    ∀ s, regexSearch pat s = substrCI pat s := by
  intro s
  induction s with
  | nil => simp only [regexSearch, substrCI, matchHere_eq_startMatchCI pat h]
  | cons c cs ih =>
    simp only [regexSearch, substrCI, matchHere_eq_startMatchCI pat h, ih]

/-- The spec's §8 search example, evaluated on the model: `"ABC"` (no
metacharacters, so regex matching is substring matching) matches
`"abcd corp"` case-insensitively and does not match `"xyz"`. -/
theorem search_spec_example :
    regexSearch "ABC".data "abcd corp".data = containsCI "ABC" "abcd corp"
      ∧ containsCI "ABC" "abcd corp" = true
      ∧ containsCI "ABC" "xyz" = false
      ∧ searchEntry (some "  ") none [entryAbc] = .badRequest := by
  refine ⟨regexSearch_eq_substrCI "ABC".data (by decide) "abcd corp".data,
    by decide, by decide, by decide⟩

end StaffDetails
